import Mathlib

/-!
Verification of `middleware/forward.go`.

A shallow embedding of the forwarding helper of `genspark2api`
(`ForwardTo`, `buildTargetURL`, `copyHeaders`, `transferResponse`,
`respondWithError`) and theorems about it.

Modelling conventions

* Go strings are Lean `String`s, `+` is `++`.
* A byte is a `Nat` (its value never matters to the code).
* `http.Header` (`map[string][]string`) is a list of key/value-sequence
  entries; the order of the entries stands for the (unspecified) order in
  which `range` visits the map.
* Effects on the outside world are recorded, in order, as a list of `Event`s.
* Library behaviour the code depends on but does not define
  (`textproto.CanonicalMIMEHeaderKey`, `http.NewRequest`, `httpClient.Do`,
  the outcome of each `Write`) is taken as a parameter.
-/

namespace Forward

/-! ## Data model -/

/-- A byte of a body. -/
abbrev Byte := Nat

/-- A Go `error` value: the distinguished `io.EOF`, or any other error with its text. -/
inductive GoError where
  | EOF
  | other (text : String)
  deriving DecidableEq, Repr

/-- The method `err.Error()`. -/
def GoError.Error : GoError → String
  | .EOF => "EOF"
  | .other text => text

/-- The type `http.Header`, a `map[string][]string`, as a list of entries. -/
structure Header where
  entries : List (String × List String)
  deriving DecidableEq, Repr

namespace Header

/-- The empty header map, as made by `make(http.Header)`. -/
def empty : Header := ⟨[]⟩

/-- The keys of the map, in entry order. -/
def keys (h : Header) : List String := h.entries.map Prod.fst

/-- Map lookup with presence, `v, ok := h[key]`. -/
def lookupIn : List (String × List String) → String → Option (List String)
  | [], _ => none
  | (k, v) :: rest, key => if k = key then some v else lookupIn rest key

/-- Map lookup with presence, `v, ok := h[key]`. -/
def get? (h : Header) (key : String) : Option (List String) := lookupIn h.entries key

/-- Map indexing `h[key]`: the nil (empty) slice when the key is absent. -/
def values (h : Header) (key : String) : List String := (h.get? key).getD []

/-- Map assignment on entries. -/
def assignIn : List (String × List String) → String → List String → List (String × List String)
  | [], key, vs => [(key, vs)]
  | (k, v) :: rest, key, vs => if k = key then (k, vs) :: rest else (k, v) :: assignIn rest key vs

/-- Map assignment `h[key] = vs`. -/
def assign (h : Header) (key : String) (vs : List String) : Header := ⟨assignIn h.entries key vs⟩

/-- The method `Header.Add(key, value)`: `key = CanonicalMIMEHeaderKey(key)` and then
`h[key] = append(h[key], value)`. The canonicalisation function is a parameter. -/
def Add (canon : String → String) (h : Header) (key value : String) : Header :=
  h.assign (canon key) (h.values (canon key) ++ [value])

end Header

/-! ## `buildTargetURL` and `copyHeaders` -/

/-- Source: `buildTargetURL` (forward.go, lines 53-59). -/
def buildTargetURL (baseURL path query : String) : String :=
  let target := baseURL ++ path
  if query ≠ "" then target ++ ("?" ++ query) else target

/-- Source: `copyHeaders` (forward.go, lines 61-67): for every key of `source`, every value
is `Add`ed to `destination`. -/
def copyHeaders (canon : String → String) (source destination : Header) : Header :=
  source.entries.foldl
    (fun dst kv => kv.2.foldl (fun d value => d.Add canon kv.1 value) dst)
    destination

/-! ## The response sink, the response body and the recorded effects -/

/-- Modelled from the spec: the type `model.OpenAIError` of package `genspark2api/model`,
which is not among the sources; the spec gives the error object its three string fields
`message`, `type` (here `Type_`, as `Type` is reserved) and `code`. -/
structure OpenAIError where
  Message : String
  Type_ : String
  Code : String
  deriving DecidableEq, Repr

/-- Modelled from the spec: the type `model.OpenAIErrorResponse` of package
`genspark2api/model`, which is not among the sources; the spec gives the envelope one
member `error` holding the error object. -/
structure OpenAIErrorResponse where
  OpenAIError : OpenAIError
  deriving DecidableEq, Repr

/-- The outbound request `newReq`. -/
structure Request where
  Method : String
  URL : String
  Header : Header
  Body : List Byte
  deriving DecidableEq, Repr

/-- The size of the read buffer of `transferResponse`, `make([]byte, 1024)`. -/
def bufSize : Nat := 1024

/-- What one call `resp.Body.Read(buf)` returns: the `n` bytes it placed in `buf[:n]`
(`data`, so `n = data.length`), with `0 ≤ n ≤ len(buf)` as every `io.Reader` guarantees,
and `err` (`none` is Go's `nil`). -/
structure ReadResult where
  data : List Byte
  err : Option GoError
  fits : data.length ≤ bufSize

/-- The backend response `resp`; its body is the sequence of results that successive
calls of `resp.Body.Read` deliver. -/
structure Response where
  StatusCode : Int
  Header : Header
  Body : List ReadResult

/-- The response sink `c.Writer`: its header map `w.Header()`, whether the type assertion
`w.(http.Flusher)` succeeds, and the error returned by the `k`-th call of `w.Write`
(counting from 0; `none` is `nil`). The interface `gin.ResponseWriter` embeds
`http.Flusher`, so for every sink `ForwardTo` receives `flusher` is `true`; the field is
there because the code tests it. -/
structure ResponseWriter where
  header : Header
  flusher : Bool
  writeErr : Nat → Option GoError

/-- The effects of the code on the outside world, in the order they happen. -/
inductive Event where
  /-- The call `httpClient.Do(newReq)`. -/
  | dispatch (req : Request)
  /-- The call `w.WriteHeader(code)`. -/
  | writeHeader (code : Int)
  /-- One call `resp.Body.Read(buf)`. -/
  | read
  /-- One call `w.Write(chunk)` and the error it returned. -/
  | write (chunk : List Byte) (err : Option GoError)
  /-- One call `flusher.Flush()`. -/
  | flush
  /-- The call `c.JSON(code, obj)`; what gin does inside it to the status and the header
  map of the sink is part of this event and is not described further. -/
  | json (code : Int) (obj : OpenAIErrorResponse)
  /-- The deferred call `resp.Body.Close()`. -/
  | close
  deriving DecidableEq, Repr

/-- How far the streaming loop got: it returned `err` (`none` is `nil`), or every read
result of the body was consumed without end-of-stream or error, so that the loop is in
its next `Read`. -/
inductive Outcome where
  | returned (err : Option GoError)
  | reading
  deriving DecidableEq, Repr

/-! ## `transferResponse` -/

/-- Source: the header loop of `transferResponse` (forward.go, lines 71-73),
`w.Header()[key] = value` for every entry of `resp.Header`. -/
def setResponseHeaders (respHeader sinkHeader : Header) : Header :=
  respHeader.entries.foldl (fun h kv => h.assign kv.1 kv.2) sinkHeader

/-- Source: the two tests on `err` that end an iteration of the loop of
`transferResponse` (lines 91-96): `some out` leaves the loop, `none` goes round again. -/
def checkErr : Option GoError → Option Outcome
  | some .EOF => some (.returned none)
  | some err => some (.returned (some err))
  | none => none

/-- Source: one iteration of the loop of `transferResponse` (lines 83-96) on the read
result `r`, when `k` calls of `w.Write` were made before: the events, whether the loop is
left, and the number of calls of `w.Write` made so far. -/
def iteration (w : ResponseWriter) (k : Nat) (r : ReadResult) :
    List Event × Option Outcome × Nat :=
  if 0 < r.data.length then
    match w.writeErr k with
    | some writeErr => ([.read, .write r.data (some writeErr)], some (.returned (some writeErr)), k + 1)
    | none => ([.read, .write r.data none, .flush], checkErr r.err, k + 1)
  else ([.read], checkErr r.err, k)

/-- Source: the loop of `transferResponse` (lines 82-99) over the read results of the body. -/
def transferLoop (w : ResponseWriter) : Nat → List ReadResult → List Event × Outcome
  | _, [] => ([], .reading)
  | k, r :: rest =>
    match iteration w k r with
    | (evs, some out, _) => (evs, out)
    | (evs, none, k2) =>
      let more := transferLoop w k2 rest
      (evs ++ more.1, more.2)

/-- The result of `transferResponse`: the header map of the sink, the events, the outcome. -/
structure Transfer where
  header : Header
  events : List Event
  outcome : Outcome

/-- Source: `transferResponse` (forward.go, lines 69-100). -/
def transferResponse (w : ResponseWriter) (resp : Response) : Transfer :=
  let header := setResponseHeaders resp.Header w.header
  if w.flusher then
    let run := transferLoop w 0 resp.Body
    { header := header, events := .writeHeader resp.StatusCode :: run.1, outcome := run.2 }
  else
    { header := header, events := [.writeHeader resp.StatusCode],
      outcome := .returned (some (.other "expected http.ResponseWriter to be an http.Flusher")) }

/-! ## `respondWithError` and `ForwardTo` -/

/-- Source: `respondWithError` (forward.go, lines 102-110). -/
def respondWithError (code : Int) (message : String) : List Event :=
  [.json code { OpenAIError := { Message := message, Type_ := "request_error", Code := "FORWARD_ERR" } }]

/-- The constant `http.StatusInternalServerError`. -/
def StatusInternalServerError : Int := 500

/-- The inbound body `c.Request.Body`: the original single-read stream, which delivers
`bytes` and then ends, cleanly or with the error `failure`; or a reader over a byte
slice, `io.NopCloser(bytes.NewReader(b))`. -/
inductive Body where
  | stream (bytes : List Byte) (failure : Option String)
  | reader (b : List Byte)
  deriving DecidableEq, Repr

/-- The call `io.Copy(&bodyBytes, body)`: the bytes that reached the buffer and the error. -/
def ioCopy : Body → List Byte × Option GoError
  | .stream bytes (some text) => (bytes, some (.other text))
  | .stream bytes none => (bytes, none)
  | .reader b => (b, none)

/-- The inbound request `c.Request`, with `Path` for `URL.Path` and `RawQuery` for
`URL.RawQuery`. -/
structure InboundRequest where
  Method : String
  Path : String
  RawQuery : String
  Header : Header
  Body : Body

/-- The context `c` of gin: the inbound request and the response sink. -/
structure Context where
  Request : InboundRequest
  Writer : ResponseWriter

/-- The library behaviour `ForwardTo` depends on: `textproto.CanonicalMIMEHeaderKey`, the
error of `http.NewRequest` for a method and a URL (`none` is `nil`), and `httpClient.Do`. -/
structure Env where
  canon : String → String
  newRequestErr : String → String → Option GoError
  Do : Request → Except GoError Response

/-- The state `ForwardTo` leaves: the field `c.Request.Body`, the header map of the sink
as the assignments of `transferResponse` left it (without what `c.JSON` does to it), the
events, and whether the call has returned. -/
structure Final where
  requestBody : Body
  header : Header
  events : List Event
  returned : Bool

/-- Source: `ForwardTo` (forward.go, lines 15-51). -/
def ForwardTo (env : Env) (c : Context) (baseURL : String) : Final :=
  match ioCopy c.Request.Body with
  | (_, some err) =>
    { requestBody := c.Request.Body, header := c.Writer.header,
      events := respondWithError StatusInternalServerError err.Error, returned := true }
  | (bodyBytes, none) =>
    let body := Body.reader bodyBytes
    let targetURL := buildTargetURL baseURL c.Request.Path c.Request.RawQuery
    match env.newRequestErr c.Request.Method targetURL with
    | some err =>
      { requestBody := body, header := c.Writer.header,
        events := respondWithError StatusInternalServerError err.Error, returned := true }
    | none =>
      let newReq : Request :=
        { Method := c.Request.Method, URL := targetURL,
          Header := copyHeaders env.canon c.Request.Header Header.empty, Body := bodyBytes }
      match env.Do newReq with
      | .error err =>
        { requestBody := body, header := c.Writer.header,
          events := .dispatch newReq :: respondWithError StatusInternalServerError err.Error,
          returned := true }
      | .ok resp =>
        let t := transferResponse c.Writer resp
        match t.outcome with
        | .reading =>
          { requestBody := body, header := t.header,
            events := .dispatch newReq :: t.events, returned := false }
        | .returned (some err) =>
          { requestBody := body, header := t.header,
            events := .dispatch newReq :: (t.events ++
              respondWithError StatusInternalServerError err.Error ++ [.close]),
            returned := true }
        | .returned none =>
          { requestBody := body, header := t.header,
            events := .dispatch newReq :: (t.events ++ [.close]), returned := true }

/-! ## Observations on a list of events -/

/-- The number of calls of `resp.Body.Read` among the events. -/
def readCount (evs : List Event) : Nat := evs.count .read

/-- The number of calls of `flusher.Flush` among the events. -/
def flushCount (evs : List Event) : Nat := evs.count .flush

/-- The chunks passed to `w.Write`, in order, whether the call failed or not. -/
def writeCalls : List Event → List (List Byte)
  | [] => []
  | .write chunk _ :: rest => chunk :: writeCalls rest
  | _ :: rest => writeCalls rest

/-- The chunks of the calls of `w.Write` that returned no error, in order. -/
def chunksWritten : List Event → List (List Byte)
  | [] => []
  | .write chunk none :: rest => chunk :: chunksWritten rest
  | _ :: rest => chunksWritten rest

/-- The bytes the sink received: the successfully written chunks, concatenated in order. -/
def sinkBytes (evs : List Event) : List Byte := (chunksWritten evs).flatten

/-- Every successful `Write` is immediately followed by a `Flush`, and a `Flush` occurs
nowhere else (so never two in a row, and none after a failed `Write` or a `Read`). -/
def flushDiscipline : List Event → Bool
  | [] => true
  | .write _ none :: .flush :: rest => flushDiscipline rest
  | .write _ none :: _ => false
  | .flush :: _ => false
  | _ :: rest => flushDiscipline rest

/-- The read results that carry at least one byte. -/
def nonEmptyReads (reads : List ReadResult) : List ReadResult :=
  reads.filter (fun r => decide (0 < r.data.length))

/-- The bytes a sequence of read results delivers, in order. -/
def bodyBytes (reads : List ReadResult) : List Byte := (reads.map ReadResult.data).flatten

/-- The events of the loop of `transferResponse` for read results that are each written
and flushed and do not end the loop. -/
def streamed : List ReadResult → List Event
  | [] => []
  | r :: rest =>
    if 0 < r.data.length then .read :: .write r.data none :: .flush :: streamed rest
    else .read :: streamed rest

/-! ## Concrete inputs used by the witnesses -/

/-- A flush-capable sink with empty headers on which every `Write` succeeds. -/
def sinkOK : ResponseWriter := ⟨Header.empty, true, fun _ => none⟩

/-- A flush-capable sink whose `n`-th `Write` (from 0) fails with the given text. -/
def sinkFailingAt (n : Nat) (text : String) : ResponseWriter :=
  ⟨Header.empty, true, fun k => if k = n then some (.other text) else none⟩

/-- A read result of `n` zero bytes. -/
def chunk (n : Nat) (err : Option GoError) (h : n ≤ bufSize) : ReadResult :=
  ⟨List.replicate n 0, err, by rw [List.length_replicate]; exact h⟩

/-- A body of 2500 bytes, read as 1024 + 1024 + 452 bytes and then end-of-stream. -/
def body2500 : List ReadResult :=
  [chunk 1024 none (by decide), chunk 1024 none (by decide), chunk 452 none (by decide)]

/-- The read that reports end-of-stream with no bytes. -/
def readEOF : ReadResult := ⟨[], some .EOF, by decide⟩

/-- A read of the two bytes 1, 2. -/
def readTwo : ReadResult := ⟨[1, 2], none, by decide⟩

/-- A read of no byte, without error. -/
def readNothing : ReadResult := ⟨[], none, by decide⟩

/-- A read of the byte 3 together with end-of-stream. -/
def readLast : ReadResult := ⟨[3], some .EOF, by decide⟩

/-- A read of the byte 3 together with the error `connection reset`. -/
def readReset : ReadResult := ⟨[3], some (.other "connection reset"), by decide⟩

/-- A response with status 200 whose body is read as two bytes, then no byte, then one
byte together with end-of-stream. -/
def respSmall : Response := ⟨200, Header.empty, [readTwo, readNothing, readLast]⟩

/-- A response with status 200 whose body is read as two bytes and then one byte together
with the error `connection reset`; what would follow is never read. -/
def respBroken : Response := ⟨200, Header.empty, [readTwo, readReset, readLast]⟩

/-- A flush-capable sink that already holds `Content-Type: a, b` and `Y: 9`. -/
def sinkWithHeaders : ResponseWriter :=
  ⟨⟨[("Content-Type", ["a", "b"]), ("Y", ["9"])]⟩, true, fun _ => none⟩

/-- A response with status 200, the header `Content-Type: text/plain` and a body read as
one byte together with end-of-stream. -/
def respPlain : Response := ⟨200, ⟨[("Content-Type", ["text/plain"])]⟩, [readLast]⟩

/-- A structured error (`c.JSON`) is sent after the status was committed
(`w.WriteHeader`). -/
def errorAfterCommit : List Event → Bool
  | [] => false
  | .writeHeader _ :: rest => rest.any (fun ev => match ev with | .json _ _ => true | _ => false)
  | _ :: rest => errorAfterCommit rest

/-- The inbound request `GET /a/b?x=1` with header `X: 1, 2` and the given body, and
the given sink. -/
def ctxGet (body : Body) (w : ResponseWriter) : Context :=
  ⟨⟨"GET", "/a/b", "x=1", ⟨[("X", ["1", "2"])]⟩, body⟩, w⟩

/-- An environment with identity canonicalisation (the keys used are canonical), the
given result of `http.NewRequest` and the given result of `httpClient.Do`. -/
def envWith (newRequestErr : Option GoError) (result : Except GoError Response) : Env :=
  ⟨id, fun _ _ => newRequestErr, fun _ => result⟩

/-! ## Theorems: `buildTargetURL` -/

/-- C1: `buildTargetURL` returns `baseURL ++ path` when the query is empty and
`baseURL ++ path ++ "?" ++ query` otherwise; character by character the result is the
components unaltered, with the single character `?` between path and query; and
`buildTargetURL "http://h" "/a/b" "x=1" = "http://h/a/b?x=1"`. -/
theorem buildTargetURL_concat (baseURL path query : String) :
    buildTargetURL baseURL path query
        = (if query = "" then baseURL ++ path else baseURL ++ path ++ "?" ++ query)
      ∧ (buildTargetURL baseURL path query).data
        = (if query = "" then baseURL.data ++ path.data
            else baseURL.data ++ path.data ++ ['?'] ++ query.data)
      ∧ buildTargetURL "http://h" "/a/b" "x=1" = "http://h/a/b?x=1" := by
  refine ⟨?_, ?_, by decide⟩
  · unfold buildTargetURL
    by_cases hq : query = ""
    · simp [hq]
    · simp [hq, String.append_assoc]
  · unfold buildTargetURL
    by_cases hq : query = ""
    · simp [hq]
    · have hmark : "?".data = ['?'] := by decide
      simp [hq, hmark, String.data_append]

/-- C9, as stated, fails: with base URL `http://h`, path `/a?` (the decoded path of a
request for `/a%3F`) and an empty query, the last character of the URL is `?`. -/
theorem buildTargetURL_trailing_mark_counterexample :
    ¬ (∀ baseURL path : String,
        (buildTargetURL baseURL path "").data.getLast? ≠ some '?') := by
  intro h
  exact h "http://h" "/a?" (by decide)

/-- C9, amended: with an empty query `buildTargetURL` returns `baseURL ++ path` and adds
no `?`: the result has as many `?` as base URL and path together, and it ends in `?`
exactly when `baseURL ++ path` does. -/
theorem buildTargetURL_empty_query (baseURL path : String) :
    buildTargetURL baseURL path "" = baseURL ++ path
      ∧ (buildTargetURL baseURL path "").data.count '?'
          = baseURL.data.count '?' + path.data.count '?'
      ∧ ((buildTargetURL baseURL path "").data.getLast? = some '?'
          ↔ (baseURL.data ++ path.data).getLast? = some '?') := by
  have h : buildTargetURL baseURL path "" = baseURL ++ path := by
    simp [buildTargetURL]
  refine ⟨h, ?_, ?_⟩
  · rw [h, String.data_append, List.count_append]
  · rw [h, String.data_append]

/-! ## Lemmas on header maps -/

theorem Header.lookupIn_assignIn_same (es : List (String × List String)) (key : String)
    (vs : List String) : Header.lookupIn (Header.assignIn es key vs) key = some vs := by
  induction es with
  | nil => simp [Header.assignIn, Header.lookupIn]
  | cons e rest ih =>
    obtain ⟨k, v⟩ := e
    by_cases hk : k = key
    · simp [Header.assignIn, Header.lookupIn, hk]
    · simp [Header.assignIn, Header.lookupIn, hk, ih]

theorem Header.lookupIn_assignIn_other (es : List (String × List String)) (key j : String)
    (vs : List String) (hj : j ≠ key) :
    Header.lookupIn (Header.assignIn es key vs) j = Header.lookupIn es j := by
  induction es with
  | nil =>
    have : ¬ key = j := fun h => hj h.symm
    simp [Header.assignIn, Header.lookupIn, this]
  | cons e rest ih =>
    obtain ⟨k, v⟩ := e
    by_cases hk : k = key
    · have : ¬ key = j := fun h => hj h.symm
      simp [Header.assignIn, Header.lookupIn, hk, this]
    · by_cases hkj : k = j
      · subst hkj
        simp [Header.assignIn, Header.lookupIn, hk]
      · simp [Header.assignIn, Header.lookupIn, hk, hkj, ih]

theorem Header.get?_assign_same (h : Header) (key : String) (vs : List String) :
    (h.assign key vs).get? key = some vs :=
  Header.lookupIn_assignIn_same h.entries key vs

theorem Header.get?_assign_other (h : Header) (key j : String) (vs : List String)
    (hj : j ≠ key) : (h.assign key vs).get? j = h.get? j :=
  Header.lookupIn_assignIn_other h.entries key j vs hj

theorem Header.assignIn_of_lookupIn (es : List (String × List String)) (key : String)
    (vs : List String) (h : Header.lookupIn es key = some vs) :
    Header.assignIn es key vs = es := by
  induction es with
  | nil => simp [Header.lookupIn] at h
  | cons e rest ih =>
    obtain ⟨k, v⟩ := e
    by_cases hk : k = key
    · simp [Header.lookupIn, hk] at h
      simp [Header.assignIn, hk, h]
    · simp [Header.lookupIn, hk] at h
      simp [Header.assignIn, hk, ih h]

theorem Header.lookupIn_of_mem (es : List (String × List String))
    (hnd : (es.map Prod.fst).Nodup) (k : String) (vs : List String) (hm : (k, vs) ∈ es) :
    Header.lookupIn es k = some vs := by
  induction es with
  | nil => simp at hm
  | cons e rest ih =>
    obtain ⟨k0, v0⟩ := e
    simp only [List.map_cons, List.nodup_cons] at hnd
    rcases List.mem_cons.mp hm with heq | hrest
    · cases heq
      simp [Header.lookupIn]
    · have hne : k0 ≠ k := by
        intro h0
        apply hnd.1
        rw [h0]
        exact List.mem_map_of_mem Prod.fst hrest
      simp [Header.lookupIn, hne, ih hnd.2 hrest]

theorem Header.values_Add_same (canon : String → String) (h : Header) (key value : String) :
    (h.Add canon key value).values (canon key) = h.values (canon key) ++ [value] := by
  simp [Header.Add, Header.values, Header.get?_assign_same]

theorem Header.get?_Add_other (canon : String → String) (h : Header) (key value j : String)
    (hj : j ≠ canon key) : (h.Add canon key value).get? j = h.get? j := by
  simp [Header.Add, Header.get?_assign_other _ _ _ _ hj]

theorem Header.values_foldl_Add (canon : String → String) (key : String) (vs : List String)
    (h : Header) :
    (vs.foldl (fun d value => d.Add canon key value) h).values (canon key)
      = h.values (canon key) ++ vs := by
  induction vs generalizing h with
  | nil => simp
  | cons v rest ih =>
    simp only [List.foldl_cons]
    rw [ih, Header.values_Add_same]
    simp

theorem Header.get?_foldl_Add_other (canon : String → String) (key j : String)
    (vs : List String) (h : Header) (hj : j ≠ canon key) :
    (vs.foldl (fun d value => d.Add canon key value) h).get? j = h.get? j := by
  induction vs generalizing h with
  | nil => simp
  | cons v rest ih =>
    simp only [List.foldl_cons]
    rw [ih, Header.get?_Add_other _ _ _ _ _ hj]

theorem copyHeaders_cons (canon : String → String) (e : String × List String)
    (rest : List (String × List String)) (destination : Header) :
    copyHeaders canon ⟨e :: rest⟩ destination
      = copyHeaders canon ⟨rest⟩
          (e.2.foldl (fun d value => d.Add canon e.1 value) destination) := by
  simp [copyHeaders]

theorem copyHeaders_get?_other (canon : String → String) (es : List (String × List String))
    (destination : Header) (j : String) (hj : j ∉ (es.map Prod.fst).map canon) :
    (copyHeaders canon ⟨es⟩ destination).get? j = destination.get? j := by
  induction es generalizing destination with
  | nil => simp [copyHeaders]
  | cons e rest ih =>
    simp only [List.map_cons, List.mem_cons, not_or] at hj
    rw [copyHeaders_cons, ih _ hj.2, Header.get?_foldl_Add_other _ _ _ _ _ hj.1]

theorem copyHeaders_values_mem (canon : String → String) (es : List (String × List String))
    (destination : Header) (hnd : ((es.map Prod.fst).map canon).Nodup)
    (k : String) (vs : List String) (hm : (k, vs) ∈ es) :
    (copyHeaders canon ⟨es⟩ destination).values (canon k)
      = destination.values (canon k) ++ vs := by
  induction es generalizing destination with
  | nil => simp at hm
  | cons e rest ih =>
    simp only [List.map_cons, List.nodup_cons] at hnd
    rw [copyHeaders_cons]
    rcases List.mem_cons.mp hm with heq | hrest
    · subst heq
      have h1 := copyHeaders_get?_other canon rest
        (vs.foldl (fun d value => d.Add canon k value) destination) (canon k) hnd.1
      simp only [Header.values] at *
      rw [h1]
      exact Header.values_foldl_Add canon k vs destination
    · have hne : canon k ≠ canon e.1 := by
        intro h0
        apply hnd.1
        rw [← h0]
        exact List.mem_map_of_mem canon (List.mem_map_of_mem Prod.fst hrest)
      rw [ih _ hnd.2 hrest]
      simp only [Header.values]
      rw [Header.get?_foldl_Add_other _ _ _ _ _ hne]

theorem setResponseHeaders_cons (e : String × List String)
    (rest : List (String × List String)) (sinkHeader : Header) :
    setResponseHeaders ⟨e :: rest⟩ sinkHeader
      = setResponseHeaders ⟨rest⟩ (sinkHeader.assign e.1 e.2) := by
  simp [setResponseHeaders]

theorem setResponseHeaders_get?_other (es : List (String × List String))
    (sinkHeader : Header) (j : String) (hj : j ∉ es.map Prod.fst) :
    (setResponseHeaders ⟨es⟩ sinkHeader).get? j = sinkHeader.get? j := by
  induction es generalizing sinkHeader with
  | nil => simp [setResponseHeaders]
  | cons e rest ih =>
    simp only [List.map_cons, List.mem_cons, not_or] at hj
    rw [setResponseHeaders_cons, ih _ hj.2, Header.get?_assign_other _ _ _ _ hj.1]

theorem setResponseHeaders_get?_mem (es : List (String × List String))
    (sinkHeader : Header) (hnd : (es.map Prod.fst).Nodup)
    (k : String) (vs : List String) (hm : (k, vs) ∈ es) :
    (setResponseHeaders ⟨es⟩ sinkHeader).get? k = some vs := by
  induction es generalizing sinkHeader with
  | nil => simp at hm
  | cons e rest ih =>
    simp only [List.map_cons, List.nodup_cons] at hnd
    rw [setResponseHeaders_cons]
    rcases List.mem_cons.mp hm with heq | hrest
    · subst heq
      rw [setResponseHeaders_get?_other rest _ k hnd.1, Header.get?_assign_same]
    · exact ih _ hnd.2 hrest

theorem setResponseHeaders_fixed (es : List (String × List String)) (h : Header)
    (hall : ∀ k vs, (k, vs) ∈ es → h.get? k = some vs) :
    setResponseHeaders ⟨es⟩ h = h := by
  induction es with
  | nil => simp [setResponseHeaders]
  | cons e rest ih =>
    rw [setResponseHeaders_cons]
    have he : h.assign e.1 e.2 = h := by
      have := Header.assignIn_of_lookupIn h.entries e.1 e.2
        (hall e.1 e.2 (List.mem_cons_self _ _))
      simp [Header.assign, this]
    rw [he]
    exact ih (fun k vs hm => hall k vs (List.mem_cons_of_mem _ hm))

/-! ## Theorems: header copying -/

/-- C5: when the keys of `source` are distinct in canonical form, after
`copyHeaders source destination` the values of the destination under (the canonical form
of) each source key are its previous values under that key followed by all the values of
the source for the key, in their order; and every key of the destination that is not the
canonical form of a source key keeps its entry. -/
theorem copyHeaders_appends (canon : String → String) (source destination : Header)
    (hkeys : (source.keys.map canon).Nodup) :
    (∀ k vs, (k, vs) ∈ source.entries →
        (copyHeaders canon source destination).values (canon k)
          = destination.values (canon k) ++ vs)
      ∧ (∀ j, j ∉ source.keys.map canon →
        (copyHeaders canon source destination).get? j = destination.get? j) :=
  ⟨fun k vs hm => copyHeaders_values_mem canon source.entries destination hkeys k vs hm,
   fun j hj => copyHeaders_get?_other canon source.entries destination j hj⟩

/-- C5, witness: the source `X: 1, 2` copied into a destination that already holds
`X: 0` and `Y: 9` (identity canonicalisation, `X` being canonical); copied into an empty
destination it yields `X: 1, 2`. -/
theorem copyHeaders_appends_witness :
    ((Header.mk [("X", ["1", "2"])]).keys.map id).Nodup
      ∧ ((∀ k vs, (k, vs) ∈ (Header.mk [("X", ["1", "2"])]).entries →
          (copyHeaders id ⟨[("X", ["1", "2"])]⟩ ⟨[("X", ["0"]), ("Y", ["9"])]⟩).values (id k)
            = (Header.mk [("X", ["0"]), ("Y", ["9"])]).values (id k) ++ vs)
        ∧ (∀ j, j ∉ (Header.mk [("X", ["1", "2"])]).keys.map id →
          (copyHeaders id ⟨[("X", ["1", "2"])]⟩ ⟨[("X", ["0"]), ("Y", ["9"])]⟩).get? j
            = (Header.mk [("X", ["0"]), ("Y", ["9"])]).get? j))
      ∧ copyHeaders id ⟨[("X", ["1", "2"])]⟩ ⟨[("X", ["0"]), ("Y", ["9"])]⟩
          = ⟨[("X", ["0", "1", "2"]), ("Y", ["9"])]⟩
      ∧ copyHeaders id ⟨[("X", ["1", "2"])]⟩ Header.empty = ⟨[("X", ["1", "2"])]⟩ :=
  ⟨by decide,
   copyHeaders_appends id ⟨[("X", ["1", "2"])]⟩ ⟨[("X", ["0"]), ("Y", ["9"])]⟩ (by decide),
   by decide, by decide⟩

theorem setResponseHeaders_spec (respHeader sinkHeader : Header)
    (hkeys : respHeader.keys.Nodup) :
    (∀ k vs, (k, vs) ∈ respHeader.entries →
        (setResponseHeaders respHeader sinkHeader).get? k = some vs)
      ∧ (∀ j, j ∉ respHeader.keys →
        (setResponseHeaders respHeader sinkHeader).get? j = sinkHeader.get? j)
      ∧ setResponseHeaders respHeader (setResponseHeaders respHeader sinkHeader)
          = setResponseHeaders respHeader sinkHeader :=
  ⟨fun k vs hm => setResponseHeaders_get?_mem respHeader.entries sinkHeader hkeys k vs hm,
   fun j hj => setResponseHeaders_get?_other respHeader.entries sinkHeader j hj,
   setResponseHeaders_fixed respHeader.entries _
     (fun k vs hm => setResponseHeaders_get?_mem respHeader.entries sinkHeader hkeys k vs hm)⟩

theorem transferResponse_header (w : ResponseWriter) (resp : Response) :
    (transferResponse w resp).header = setResponseHeaders resp.Header w.header := by
  cases hf : w.flusher <;> simp [transferResponse, hf]

/-- C6: when the keys of the response header map are distinct (it is a map), the sink
header map that `transferResponse` leaves maps every key of the response to exactly the
value sequence of the response, whatever the sink held before under that key; every other
key of the sink keeps its entry; and running `transferResponse` again on the sink it left
leaves the same header map. This holds whether or not the body transfer then succeeds. -/
theorem transferResponse_header_overwrites (w : ResponseWriter) (resp : Response)
    (hkeys : resp.Header.keys.Nodup) :
    (∀ k vs, (k, vs) ∈ resp.Header.entries →
        (transferResponse w resp).header.get? k = some vs)
      ∧ (∀ j, j ∉ resp.Header.keys →
        (transferResponse w resp).header.get? j = w.header.get? j)
      ∧ (transferResponse ⟨(transferResponse w resp).header, w.flusher, w.writeErr⟩ resp).header
          = (transferResponse w resp).header
      ∧ (transferResponse w resp).header = setResponseHeaders resp.Header w.header
      ∧ setResponseHeaders resp.Header (setResponseHeaders resp.Header w.header)
          = setResponseHeaders resp.Header w.header := by
  have hspec := setResponseHeaders_spec resp.Header w.header hkeys
  have hh := transferResponse_header w resp
  refine ⟨?_, ?_, ?_, hh, hspec.2.2⟩
  · intro k vs hm
    rw [hh]
    exact hspec.1 k vs hm
  · intro j hj
    rw [hh]
    exact hspec.2.1 j hj
  · rw [transferResponse_header, hh]
    exact hspec.2.2

/-- C6, witness: the backend header `Content-Type: text/plain` over a sink that holds
`Content-Type: a, b` and `Y: 9` leaves the single value `text/plain` and `Y: 9`, also
when the transfer is run twice. -/
theorem transferResponse_header_overwrites_witness :
    respPlain.Header.keys.Nodup
      ∧ ((∀ k vs, (k, vs) ∈ respPlain.Header.entries →
          (transferResponse sinkWithHeaders respPlain).header.get? k = some vs)
        ∧ (∀ j, j ∉ respPlain.Header.keys →
          (transferResponse sinkWithHeaders respPlain).header.get? j
            = sinkWithHeaders.header.get? j)
        ∧ (transferResponse ⟨(transferResponse sinkWithHeaders respPlain).header,
              sinkWithHeaders.flusher, sinkWithHeaders.writeErr⟩ respPlain).header
            = (transferResponse sinkWithHeaders respPlain).header
        ∧ (transferResponse sinkWithHeaders respPlain).header
            = setResponseHeaders respPlain.Header sinkWithHeaders.header
        ∧ setResponseHeaders respPlain.Header
              (setResponseHeaders respPlain.Header sinkWithHeaders.header)
            = setResponseHeaders respPlain.Header sinkWithHeaders.header)
      ∧ (transferResponse sinkWithHeaders respPlain).header
          = ⟨[("Content-Type", ["text/plain"]), ("Y", ["9"])]⟩
      ∧ (transferResponse ⟨(transferResponse sinkWithHeaders respPlain).header, true,
            fun _ => none⟩ respPlain).header
          = ⟨[("Content-Type", ["text/plain"]), ("Y", ["9"])]⟩ :=
  ⟨by decide, transferResponse_header_overwrites sinkWithHeaders respPlain (by decide),
   by decide, by decide⟩

/-! ## Lemmas on the streaming loop -/

theorem transferLoop_cons (w : ResponseWriter) (k : Nat) (r : ReadResult)
    (rest : List ReadResult) :
    (0 < r.data.length ∧ ∃ e, w.writeErr k = some e ∧
        transferLoop w k (r :: rest)
          = ([.read, .write r.data (some e)], .returned (some e)))
      ∨ (0 < r.data.length ∧ w.writeErr k = none ∧ ∃ out, checkErr r.err = some out ∧
        transferLoop w k (r :: rest) = ([.read, .write r.data none, .flush], out))
      ∨ (0 < r.data.length ∧ w.writeErr k = none ∧ checkErr r.err = none ∧
        transferLoop w k (r :: rest)
          = (.read :: .write r.data none :: .flush :: (transferLoop w (k + 1) rest).1,
             (transferLoop w (k + 1) rest).2))
      ∨ (r.data = [] ∧ ∃ out, checkErr r.err = some out ∧
        transferLoop w k (r :: rest) = ([.read], out))
      ∨ (r.data = [] ∧ checkErr r.err = none ∧
        transferLoop w k (r :: rest)
          = (.read :: (transferLoop w k rest).1, (transferLoop w k rest).2)) := by
  by_cases hn : 0 < r.data.length
  · cases hw : w.writeErr k with
    | some e =>
      left
      exact ⟨hn, e, rfl, by simp [transferLoop, iteration, hn, hw]⟩
    | none =>
      cases hc : checkErr r.err with
      | some out =>
        right; left
        exact ⟨hn, rfl, out, rfl, by simp [transferLoop, iteration, hn, hw, hc]⟩
      | none =>
        right; right; left
        exact ⟨hn, rfl, rfl, by simp [transferLoop, iteration, hn, hw, hc]⟩
  · have he : r.data = [] := by
      cases hd : r.data with
      | nil => rfl
      | cons a l => simp [hd] at hn
    cases hc : checkErr r.err with
    | some out =>
      right; right; right; left
      exact ⟨he, out, rfl, by simp [transferLoop, iteration, he, hc]⟩
    | none =>
      right; right; right; right
      exact ⟨he, rfl, by simp [transferLoop, iteration, he, hc]⟩

theorem transferLoop_write_size (w : ResponseWriter) (reads : List ReadResult) (k : Nat)
    (c : List Byte) (e : Option GoError) (hm : Event.write c e ∈ (transferLoop w k reads).1) :
    0 < c.length ∧ c.length ≤ bufSize := by
  induction reads generalizing k with
  | nil => simp [transferLoop] at hm
  | cons r rest ih =>
    rcases transferLoop_cons w k r rest with
      ⟨hn, e1, _, h⟩ | ⟨hn, _, out, _, h⟩ | ⟨hn, _, _, h⟩ | ⟨_, out, _, h⟩ | ⟨_, _, h⟩
    · rw [h] at hm
      simp at hm
      rw [hm.1]
      exact ⟨hn, r.fits⟩
    · rw [h] at hm
      simp at hm
      rw [hm.1]
      exact ⟨hn, r.fits⟩
    · rw [h] at hm
      simp at hm
      rcases hm with hm | hm
      · rw [hm.1]
        exact ⟨hn, r.fits⟩
      · exact ih (k + 1) hm
    · rw [h] at hm
      simp at hm
    · rw [h] at hm
      simp at hm
      exact ih k hm

theorem transferLoop_flushDiscipline (w : ResponseWriter) (reads : List ReadResult) (k : Nat) :
    flushDiscipline (transferLoop w k reads).1 = true := by
  induction reads generalizing k with
  | nil => simp [transferLoop, flushDiscipline]
  | cons r rest ih =>
    rcases transferLoop_cons w k r rest with
      ⟨_, e1, _, h⟩ | ⟨_, _, out, _, h⟩ | ⟨_, _, _, h⟩ | ⟨_, out, _, h⟩ | ⟨_, _, h⟩
    · rw [h]
      simp [flushDiscipline]
    · rw [h]
      simp [flushDiscipline]
    · rw [h]
      simp [flushDiscipline, ih (k + 1)]
    · rw [h]
      simp [flushDiscipline]
    · rw [h]
      simp [flushDiscipline, ih k]

theorem transferLoop_flushCount (w : ResponseWriter) (reads : List ReadResult) (k : Nat) :
    flushCount (transferLoop w k reads).1 = (chunksWritten (transferLoop w k reads).1).length := by
  induction reads generalizing k with
  | nil => simp [transferLoop, flushCount, chunksWritten]
  | cons r rest ih =>
    rcases transferLoop_cons w k r rest with
      ⟨_, e1, _, h⟩ | ⟨_, _, out, _, h⟩ | ⟨_, _, _, h⟩ | ⟨_, out, _, h⟩ | ⟨_, _, h⟩
    · rw [h]
      simp [flushCount, chunksWritten, List.count_cons]
    · rw [h]
      simp [flushCount, chunksWritten, List.count_cons]
    · rw [h]
      have := ih (k + 1)
      simp [flushCount, chunksWritten, List.count_cons] at this ⊢
      exact this
    · rw [h]
      simp [flushCount, chunksWritten, List.count_cons]
    · rw [h]
      have := ih k
      simp [flushCount, chunksWritten, List.count_cons] at this ⊢
      exact this

theorem transferLoop_writeCalls (w : ResponseWriter) (reads : List ReadResult) (k : Nat) :
    writeCalls (transferLoop w k reads).1
      = ((reads.take (readCount (transferLoop w k reads).1)).map ReadResult.data).filter
          (fun c => decide (c ≠ [])) := by
  induction reads generalizing k with
  | nil => simp [transferLoop, writeCalls]
  | cons r rest ih =>
    rcases transferLoop_cons w k r rest with
      ⟨hn, e1, _, h⟩ | ⟨hn, _, out, _, h⟩ | ⟨hn, _, _, h⟩ | ⟨he, out, _, h⟩ | ⟨he, _, h⟩
    · rw [h]
      have hne : r.data ≠ [] := by intro h0; simp [h0] at hn
      simp [readCount, writeCalls, List.count_cons, hne]
    · rw [h]
      have hne : r.data ≠ [] := by intro h0; simp [h0] at hn
      simp [readCount, writeCalls, List.count_cons, hne]
    · rw [h]
      have hne : r.data ≠ [] := by intro h0; simp [h0] at hn
      have := ih (k + 1)
      simp [readCount, writeCalls, List.count_cons, hne] at this ⊢
      exact this
    · rw [h]
      simp [readCount, writeCalls, List.count_cons, he]
    · rw [h]
      have := ih k
      simp [readCount, writeCalls, List.count_cons, he] at this ⊢
      exact this

theorem mem_of_mem_chunksWritten (evs : List Event) (c : List Byte)
    (hm : c ∈ chunksWritten evs) : Event.write c none ∈ evs := by
  induction evs with
  | nil => simp [chunksWritten] at hm
  | cons ev rest ih =>
    cases ev with
    | write chunk err =>
      cases err with
      | none =>
        simp [chunksWritten] at hm
        rcases hm with hm | hm
        · simp [hm]
        · exact List.mem_cons_of_mem _ (ih hm)
      | some e =>
        simp [chunksWritten] at hm
        exact List.mem_cons_of_mem _ (ih hm)
    | _ =>
      simp [chunksWritten] at hm
      exact List.mem_cons_of_mem _ (ih hm)

theorem length_flatten_le (cs : List (List Byte)) (b : Nat)
    (h : ∀ c ∈ cs, c.length ≤ b) : cs.flatten.length ≤ b * cs.length := by
  induction cs with
  | nil => simp
  | cons c rest ih =>
    have h1 := h c (List.mem_cons_self _ _)
    have h2 := ih (fun x hx => h x (List.mem_cons_of_mem _ hx))
    simp only [List.flatten_cons, List.length_append, List.length_cons]
    rw [Nat.mul_add]
    omega

theorem chunksWritten_append (a b : List Event) :
    chunksWritten (a ++ b) = chunksWritten a ++ chunksWritten b := by
  induction a with
  | nil => simp [chunksWritten]
  | cons ev rest ih =>
    cases ev with
    | write chunk err =>
      cases err with
      | none => simp [chunksWritten, ih]
      | some e => simp [chunksWritten, ih]
    | _ => simp [chunksWritten, ih]

theorem sinkBytes_append (a b : List Event) :
    sinkBytes (a ++ b) = sinkBytes a ++ sinkBytes b := by
  simp [sinkBytes, chunksWritten_append]

theorem sinkBytes_streamed (reads : List ReadResult) :
    sinkBytes (streamed reads) = bodyBytes reads := by
  induction reads with
  | nil => simp [streamed, sinkBytes, chunksWritten, bodyBytes]
  | cons r rest ih =>
    by_cases hn : 0 < r.data.length
    · simp [streamed, hn, sinkBytes, chunksWritten, bodyBytes] at ih ⊢
      exact ih
    · have he : r.data = [] := by
        cases hd : r.data with
        | nil => rfl
        | cons a l => simp [hd] at hn
      simp [streamed, he, sinkBytes, chunksWritten, bodyBytes] at ih ⊢
      exact ih

theorem readCount_streamed (reads : List ReadResult) :
    readCount (streamed reads) = reads.length := by
  induction reads with
  | nil => simp [streamed, readCount]
  | cons r rest ih =>
    by_cases hn : 0 < r.data.length
    · simp [streamed, hn, readCount, List.count_cons] at ih ⊢
      exact ih
    · simp [streamed, hn, readCount, List.count_cons] at ih ⊢
      exact ih

theorem flushCount_streamed (reads : List ReadResult) :
    flushCount (streamed reads) = (nonEmptyReads reads).length := by
  induction reads with
  | nil => simp [streamed, flushCount, nonEmptyReads]
  | cons r rest ih =>
    by_cases hn : 0 < r.data.length
    · simp [streamed, hn, flushCount, nonEmptyReads, List.count_cons, List.filter_cons] at ih ⊢
      exact ih
    · simp [streamed, hn, flushCount, nonEmptyReads, List.count_cons, List.filter_cons] at ih ⊢
      exact ih

theorem transferLoop_streamed (w : ResponseWriter) (reads rest : List ReadResult) (k : Nat)
    (hreads : ∀ x ∈ reads, x.err = none)
    (hw : ∀ j, k ≤ j → j < k + (nonEmptyReads reads).length → w.writeErr j = none) :
    transferLoop w k (reads ++ rest)
      = (streamed reads ++ (transferLoop w (k + (nonEmptyReads reads).length) rest).1,
         (transferLoop w (k + (nonEmptyReads reads).length) rest).2) := by
  induction reads generalizing k with
  | nil => simp [streamed, nonEmptyReads]
  | cons r more ih =>
    have herr : r.err = none := hreads r (List.mem_cons_self _ _)
    have hmore : ∀ x ∈ more, x.err = none := fun x hx => hreads x (List.mem_cons_of_mem _ hx)
    by_cases hn : 0 < r.data.length
    · have hlen : (nonEmptyReads (r :: more)).length = (nonEmptyReads more).length + 1 := by
        simp [nonEmptyReads, List.filter_cons, hn]
      have hk : w.writeErr k = none := hw k (Nat.le_refl k) (by omega)
      have hrec := ih (k + 1) hmore (fun j h1 h2 => hw j (by omega) (by omega))
      have hidx : k + 1 + (nonEmptyReads more).length
          = k + (nonEmptyReads (r :: more)).length := by omega
      rw [hidx] at hrec
      simp [transferLoop, iteration, hn, hk, herr, checkErr, streamed, hrec]
    · have hlen : (nonEmptyReads (r :: more)).length = (nonEmptyReads more).length := by
        simp [nonEmptyReads, List.filter_cons, hn]
      have hrec := ih k hmore (fun j h1 h2 => hw j h1 (by omega))
      rw [← hlen] at hrec
      simp [transferLoop, iteration, hn, herr, checkErr, streamed, hrec]

theorem transferResponse_flusher (w : ResponseWriter) (resp : Response)
    (hflush : w.flusher = true) :
    (transferResponse w resp).events
        = .writeHeader resp.StatusCode :: (transferLoop w 0 resp.Body).1
      ∧ (transferResponse w resp).outcome = (transferLoop w 0 resp.Body).2 := by
  simp [transferResponse, hflush]

theorem transferLoop_last (w : ResponseWriter) (k : Nat) (r : ReadResult)
    (rest : List ReadResult) (out : Outcome) (hc : checkErr r.err = some out)
    (hw : r.data ≠ [] → w.writeErr k = none) :
    transferLoop w k (r :: rest) = (streamed [r], out) := by
  by_cases hn : 0 < r.data.length
  · have hne : r.data ≠ [] := by intro h0; simp [h0] at hn
    simp [transferLoop, iteration, hn, hw hne, hc, streamed]
  · simp [transferLoop, iteration, hn, hc, streamed]

theorem transferLoop_write_fails (w : ResponseWriter) (k : Nat) (r : ReadResult)
    (rest : List ReadResult) (e : GoError) (hne : r.data ≠ [])
    (hw : w.writeErr k = some e) :
    transferLoop w k (r :: rest) = ([.read, .write r.data (some e)], .returned (some e)) := by
  have hn : 0 < r.data.length := List.length_pos.mpr hne
  simp [transferLoop, iteration, hn, hw]

theorem streamed_append (a b : List ReadResult) :
    streamed (a ++ b) = streamed a ++ streamed b := by
  induction a with
  | nil => simp [streamed]
  | cons r rest ih =>
    by_cases hn : 0 < r.data.length
    · simp [streamed, hn, ih]
    · simp [streamed, hn, ih]

theorem streamed_getLast (reads : List ReadResult) (r : ReadResult) (hne : r.data ≠ []) :
    (streamed (reads ++ [r])).getLast? = some .flush := by
  have hn : 0 < r.data.length := List.length_pos.mpr hne
  have h : streamed (reads ++ [r]) = (streamed reads ++ [.read, .write r.data none]) ++ [.flush] := by
    rw [streamed_append]
    simp [streamed, hn]
  rw [h, List.getLast?_append]
  simp

/-! ## Lemmas on `transferResponse` -/

theorem transferResponse_until_eof (w : ResponseWriter) (resp : Response)
    (reads : List ReadResult) (last : ReadResult) (rest : List ReadResult)
    (hflush : w.flusher = true) (hw : ∀ k, w.writeErr k = none)
    (hbody : resp.Body = reads ++ last :: rest)
    (hreads : ∀ x ∈ reads, x.err = none) (hlast : last.err = some .EOF) :
    (transferResponse w resp).outcome = .returned none
      ∧ sinkBytes (transferResponse w resp).events = bodyBytes (reads ++ [last])
      ∧ readCount (transferResponse w resp).events = reads.length + 1 := by
  obtain ⟨hev, hout⟩ := transferResponse_flusher w resp hflush
  have hloop := transferLoop_streamed w reads (last :: rest) 0 hreads (fun j _ _ => hw j)
  have hfin := transferLoop_last w (0 + (nonEmptyReads reads).length) last rest
    (.returned none) (by simp [hlast, checkErr]) (fun _ => hw _)
  rw [hfin] at hloop
  rw [hev, hout, hbody, hloop]
  refine ⟨rfl, ?_, ?_⟩
  · have h1 : sinkBytes (Event.writeHeader resp.StatusCode :: (streamed reads ++ streamed [last]))
        = sinkBytes (streamed reads ++ streamed [last]) := by
      simp [sinkBytes, chunksWritten]
    simp only []
    rw [h1, ← streamed_append, sinkBytes_streamed]
  · have h1 : readCount (Event.writeHeader resp.StatusCode :: (streamed reads ++ streamed [last]))
        = readCount (streamed reads ++ streamed [last]) := by
      simp [readCount, List.count_cons]
    simp only []
    rw [h1, ← streamed_append, readCount_streamed]
    simp

theorem body2500_reads_ok : ∀ x ∈ body2500, x.err = none := by
  intro x hx
  simp only [body2500, List.mem_cons, List.mem_singleton, List.not_mem_nil, or_false] at hx
  rcases hx with h | h | h <;> (rw [h]; rfl)

theorem body2500_length : (bodyBytes (body2500 ++ [readEOF])).length = 2500 := by
  simp only [bodyBytes, body2500, readEOF, chunk, List.cons_append, List.nil_append,
    List.map_cons, List.map_nil, List.flatten_cons, List.flatten_nil, List.length_append,
    List.length_replicate, List.length_nil]

/-! ## Theorems: `transferResponse` -/

/-- C2: when the sink supports flush, no `Write` fails, and the reads of the response
body succeed until one reports end-of-stream (possibly together with bytes),
`transferResponse` returns `nil`, it reads no further, and the bytes the sink received
are exactly the bytes of the body, those of the last read included. -/
theorem transferResponse_streams_body (w : ResponseWriter) (resp : Response)
    (reads : List ReadResult) (last : ReadResult) (rest : List ReadResult)
    (hflush : w.flusher = true) (hw : ∀ k, w.writeErr k = none)
    (hbody : resp.Body = reads ++ last :: rest)
    (hreads : ∀ x ∈ reads, x.err = none) (hlast : last.err = some .EOF) :
    (transferResponse w resp).outcome = .returned none
      ∧ sinkBytes (transferResponse w resp).events = bodyBytes (reads ++ [last])
      ∧ readCount (transferResponse w resp).events = reads.length + 1 :=
  transferResponse_until_eof w resp reads last rest hflush hw hbody hreads hlast

/-- C2, witness: a body of 2500 bytes read as 1024 + 1024 + 452 bytes and then
end-of-stream is received by the sink as the same 2500 bytes. -/
theorem transferResponse_streams_body_witness :
    ((transferResponse sinkOK ⟨200, Header.empty, body2500 ++ [readEOF]⟩).outcome
        = .returned none
      ∧ sinkBytes (transferResponse sinkOK ⟨200, Header.empty, body2500 ++ [readEOF]⟩).events
        = bodyBytes (body2500 ++ [readEOF])
      ∧ readCount (transferResponse sinkOK ⟨200, Header.empty, body2500 ++ [readEOF]⟩).events
        = body2500.length + 1)
      ∧ (bodyBytes (body2500 ++ [readEOF])).length = 2500 :=
  ⟨transferResponse_streams_body sinkOK ⟨200, Header.empty, body2500 ++ [readEOF]⟩
      body2500 readEOF [] rfl (fun _ => rfl) rfl
      body2500_reads_ok rfl,
   body2500_length⟩

/-- C8: in every run of `transferResponse` with a flush-capable sink, every `Write`
carries a chunk of at least 1 and at most 1024 bytes; every successful `Write` is
immediately followed by one `Flush` and no `Flush` occurs elsewhere, so that there are as
many flushes as successful writes; the chunks passed to `Write` are exactly the non-empty
chunks of the reads performed, in order (a read of zero bytes causes no write); hence the
`n` bytes received by the sink took at least `ceil (n / 1024)` successful writes, at
least 3 for 2500 bytes. -/
theorem transferResponse_write_flush (w : ResponseWriter) (resp : Response)
    (hflush : w.flusher = true) :
    (∀ c e, Event.write c e ∈ (transferResponse w resp).events →
        0 < c.length ∧ c.length ≤ 1024)
      ∧ flushDiscipline (transferResponse w resp).events = true
      ∧ flushCount (transferResponse w resp).events
          = (chunksWritten (transferResponse w resp).events).length
      ∧ writeCalls (transferResponse w resp).events
          = ((resp.Body.take (readCount (transferResponse w resp).events)).map
              ReadResult.data).filter (fun c => decide (c ≠ []))
      ∧ ((sinkBytes (transferResponse w resp).events).length + 1023) / 1024
          ≤ (chunksWritten (transferResponse w resp).events).length
      ∧ ((sinkBytes (transferResponse w resp).events).length = 2500 →
          3 ≤ (chunksWritten (transferResponse w resp).events).length) := by
  obtain ⟨hev, _⟩ := transferResponse_flusher w resp hflush
  have hsize : ∀ c e, Event.write c e ∈ (transferResponse w resp).events →
      0 < c.length ∧ c.length ≤ 1024 := by
    intro c e hm
    rw [hev] at hm
    simp only [List.mem_cons] at hm
    rcases hm with hm | hm
    · cases hm
    · exact transferLoop_write_size w resp.Body 0 c e hm
  have hbound : (sinkBytes (transferResponse w resp).events).length
      ≤ 1024 * (chunksWritten (transferResponse w resp).events).length := by
    apply length_flatten_le
    intro c hc
    exact (hsize c none (mem_of_mem_chunksWritten _ c hc)).2
  refine ⟨hsize, ?_, ?_, ?_, ?_, ?_⟩
  · rw [hev]
    simp [flushDiscipline, transferLoop_flushDiscipline]
  · rw [hev]
    have := transferLoop_flushCount w resp.Body 0
    simp [flushCount, chunksWritten, List.count_cons] at this ⊢
    exact this
  · rw [hev]
    have := transferLoop_writeCalls w resp.Body 0
    simp [readCount, writeCalls, List.count_cons] at this ⊢
    exact this
  · omega
  · intro h
    omega

/-- C8, witness: a body read as two bytes, no byte, and one byte with end-of-stream: two
writes, each followed by its flush, none for the empty read. -/
theorem transferResponse_write_flush_witness :
    sinkOK.flusher = true
      ∧ ((∀ c e, Event.write c e ∈ (transferResponse sinkOK respSmall).events →
            0 < c.length ∧ c.length ≤ 1024)
        ∧ flushDiscipline (transferResponse sinkOK respSmall).events = true
        ∧ flushCount (transferResponse sinkOK respSmall).events
            = (chunksWritten (transferResponse sinkOK respSmall).events).length
        ∧ writeCalls (transferResponse sinkOK respSmall).events
            = ((respSmall.Body.take (readCount (transferResponse sinkOK respSmall).events)).map
                ReadResult.data).filter (fun c => decide (c ≠ []))
        ∧ ((sinkBytes (transferResponse sinkOK respSmall).events).length + 1023) / 1024
            ≤ (chunksWritten (transferResponse sinkOK respSmall).events).length
        ∧ ((sinkBytes (transferResponse sinkOK respSmall).events).length = 2500 →
            3 ≤ (chunksWritten (transferResponse sinkOK respSmall).events).length))
      ∧ (transferResponse sinkOK respSmall).events
          = [.writeHeader 200, .read, .write [1, 2] none, .flush, .read,
             .read, .write [3] none, .flush]
      ∧ 3 ≤ (chunksWritten (transferResponse sinkOK
            ⟨200, Header.empty, body2500 ++ [readEOF]⟩).events).length :=
  ⟨rfl, transferResponse_write_flush sinkOK respSmall rfl, by decide,
   (transferResponse_write_flush sinkOK ⟨200, Header.empty, body2500 ++ [readEOF]⟩
      rfl).2.2.2.2.2
     (by
      rw [(transferResponse_until_eof sinkOK ⟨200, Header.empty, body2500 ++ [readEOF]⟩
        body2500 readEOF [] rfl (fun _ => rfl) rfl body2500_reads_ok rfl).2.1]
      exact body2500_length)⟩

/-- C10: let the reads before some read `r` succeed and their chunks be written. If `r`
fails with an error other than end-of-stream (and the bytes it returns, if any, are
written), `transferResponse` returns exactly that error, `r` is the last read, and the
bytes the sink received are the chunks of all reads up to and including `r`, the chunk of
`r` being written and flushed first. If instead the `Write` of the chunk of `r` fails,
`transferResponse` returns that write error and the failed `Write` is its last action:
no flush for that chunk and no further read. -/
theorem transferResponse_failures (w : ResponseWriter) (resp : Response)
    (reads : List ReadResult) (r : ReadResult) (rest : List ReadResult)
    (hflush : w.flusher = true) (hbody : resp.Body = reads ++ r :: rest)
    (hreads : ∀ x ∈ reads, x.err = none)
    (hw : ∀ j, j < (nonEmptyReads reads).length → w.writeErr j = none) :
    (∀ err, r.err = some err → err ≠ .EOF →
        (r.data ≠ [] → w.writeErr (nonEmptyReads reads).length = none) →
        (transferResponse w resp).outcome = .returned (some err)
          ∧ readCount (transferResponse w resp).events = reads.length + 1
          ∧ sinkBytes (transferResponse w resp).events = bodyBytes (reads ++ [r])
          ∧ flushCount (transferResponse w resp).events = (nonEmptyReads (reads ++ [r])).length
          ∧ (r.data ≠ [] → (transferResponse w resp).events.getLast? = some .flush))
      ∧ (∀ e, r.data ≠ [] → w.writeErr (nonEmptyReads reads).length = some e →
        (transferResponse w resp).outcome = .returned (some e)
          ∧ (transferResponse w resp).events.getLast? = some (.write r.data (some e))
          ∧ readCount (transferResponse w resp).events = reads.length + 1
          ∧ flushCount (transferResponse w resp).events = (nonEmptyReads reads).length
          ∧ sinkBytes (transferResponse w resp).events = bodyBytes reads) := by
  obtain ⟨hev, hout⟩ := transferResponse_flusher w resp hflush
  have hloop := transferLoop_streamed w reads (r :: rest) 0 hreads
    (fun j _ h2 => hw j (by omega))
  rw [Nat.zero_add] at hloop
  constructor
  · intro err herr hne hwr
    have hc : checkErr r.err = some (.returned (some err)) := by
      cases err with
      | EOF => exact absurd rfl hne
      | other text => simp [herr, checkErr]
    have hfin := transferLoop_last w (nonEmptyReads reads).length r rest _ hc hwr
    rw [hfin] at hloop
    rw [hev, hout, hbody, hloop]
    simp only []
    rw [← streamed_append]
    refine ⟨trivial, ?_, ?_, ?_, ?_⟩
    · have h1 : readCount (Event.writeHeader resp.StatusCode :: streamed (reads ++ [r]))
          = readCount (streamed (reads ++ [r])) := by
        simp [readCount, List.count_cons]
      rw [h1, readCount_streamed]
      simp
    · have h1 : sinkBytes (Event.writeHeader resp.StatusCode :: streamed (reads ++ [r]))
          = sinkBytes (streamed (reads ++ [r])) := by
        simp [sinkBytes, chunksWritten]
      rw [h1, sinkBytes_streamed]
    · have h1 : flushCount (Event.writeHeader resp.StatusCode :: streamed (reads ++ [r]))
          = flushCount (streamed (reads ++ [r])) := by
        simp [flushCount, List.count_cons]
      rw [h1, flushCount_streamed]
    · intro hdata
      have h2 := streamed_getLast reads r hdata
      cases hs : streamed (reads ++ [r]) with
      | nil => rw [hs] at h2; simp at h2
      | cons a l =>
        rw [hs] at h2
        rw [List.getLast?_cons_cons]
        exact h2
  · intro e hdata hwr
    have hfin := transferLoop_write_fails w (nonEmptyReads reads).length r rest e hdata hwr
    rw [hfin] at hloop
    rw [hev, hout, hbody, hloop]
    simp only []
    refine ⟨trivial, ?_, ?_, ?_, ?_⟩
    · have h3 : Event.writeHeader resp.StatusCode
            :: (streamed reads ++ [Event.read, Event.write r.data (some e)])
          = (Event.writeHeader resp.StatusCode :: (streamed reads ++ [Event.read]))
            ++ [Event.write r.data (some e)] := by simp
      rw [h3, List.getLast?_append]
      simp
    · have h1 := readCount_streamed reads
      simp [readCount, List.count_cons, List.count_append] at h1 ⊢
      exact h1
    · have h1 := flushCount_streamed reads
      simp [flushCount, List.count_cons, List.count_append] at h1 ⊢
      exact h1
    · have h1 := sinkBytes_streamed reads
      rw [← h1]
      simp [sinkBytes, chunksWritten, chunksWritten_append]

/-- C10, witness: a body whose second read returns one byte and `connection reset`
(the sink gets the three bytes read and the call returns that error), and a sink whose
second `Write` fails with `broken pipe` (the call returns it, the failed `Write` being the
last event). -/
theorem transferResponse_failures_witness :
    ((transferResponse sinkOK respBroken).outcome
          = .returned (some (.other "connection reset"))
        ∧ readCount (transferResponse sinkOK respBroken).events = 2
        ∧ sinkBytes (transferResponse sinkOK respBroken).events = [1, 2, 3]
        ∧ flushCount (transferResponse sinkOK respBroken).events = 2
        ∧ (readReset.data ≠ [] →
            (transferResponse sinkOK respBroken).events.getLast? = some .flush))
      ∧ ((transferResponse (sinkFailingAt 1 "broken pipe") respSmall).outcome
          = .returned (some (.other "broken pipe"))
        ∧ (transferResponse (sinkFailingAt 1 "broken pipe") respSmall).events.getLast?
          = some (.write [3] (some (.other "broken pipe")))
        ∧ readCount (transferResponse (sinkFailingAt 1 "broken pipe") respSmall).events = 3
        ∧ flushCount (transferResponse (sinkFailingAt 1 "broken pipe") respSmall).events = 1
        ∧ sinkBytes (transferResponse (sinkFailingAt 1 "broken pipe") respSmall).events
          = [1, 2]) :=
  ⟨(transferResponse_failures sinkOK respBroken [readTwo] readReset [readLast] rfl rfl
      (by intro x hx; rw [List.mem_singleton.mp hx]; rfl) (fun _ _ => rfl)).1
      (.other "connection reset") rfl (by decide) (fun _ => rfl),
   (transferResponse_failures (sinkFailingAt 1 "broken pipe") respSmall
      [readTwo, readNothing] readLast [] rfl rfl
      (by
        intro x hx
        simp only [List.mem_cons, List.mem_singleton, List.not_mem_nil, or_false] at hx
        rcases hx with h | h <;> (rw [h]; rfl))
      (by
        intro j hj
        have h0 : j = 0 := by
          have : (nonEmptyReads [readTwo, readNothing]).length = 1 := by decide
          omega
        rw [h0]
        rfl)).2
      (.other "broken pipe") (by decide) rfl⟩

theorem transferLoop_no_json (w : ResponseWriter) (reads : List ReadResult) (k : Nat)
    (code : Int) (obj : OpenAIErrorResponse) :
    Event.json code obj ∉ (transferLoop w k reads).1 := by
  induction reads generalizing k with
  | nil => simp [transferLoop]
  | cons r rest ih =>
    rcases transferLoop_cons w k r rest with
      ⟨_, e1, _, h⟩ | ⟨_, _, out, _, h⟩ | ⟨_, _, _, h⟩ | ⟨_, out, _, h⟩ | ⟨_, _, h⟩
    · rw [h]; simp
    · rw [h]; simp
    · rw [h]; simp [ih (k + 1)]
    · rw [h]; simp
    · rw [h]; simp [ih k]

theorem transferResponse_no_json (w : ResponseWriter) (resp : Response)
    (code : Int) (obj : OpenAIErrorResponse) :
    Event.json code obj ∉ (transferResponse w resp).events := by
  cases hf : w.flusher with
  | true =>
    rw [(transferResponse_flusher w resp hf).1]
    simp [transferLoop_no_json]
  | false => simp [transferResponse, hf]

/-! ## Theorems: `ForwardTo` -/

/-- C4: each failure before the response is committed makes `ForwardTo` send exactly one
structured error, with status 500, the text of the error, type `request_error` and code
`FORWARD_ERR`, and nothing else reaches the sink (no status, no header change, no body
byte): after a failed body read that is the only event (no outbound request is
dispatched), also after a failed `http.NewRequest`; after a failed dispatch the only
events are the dispatch and the structured error. -/
theorem ForwardTo_error_before_commit (env : Env) (c : Context) (baseURL : String) :
    (∀ got err, ioCopy c.Request.Body = (got, some err) →
        (ForwardTo env c baseURL).events
            = [.json 500 ⟨⟨err.Error, "request_error", "FORWARD_ERR"⟩⟩]
          ∧ (ForwardTo env c baseURL).header = c.Writer.header
          ∧ (ForwardTo env c baseURL).returned = true)
      ∧ (∀ bodyBytes err, ioCopy c.Request.Body = (bodyBytes, none) →
        env.newRequestErr c.Request.Method
            (buildTargetURL baseURL c.Request.Path c.Request.RawQuery) = some err →
        (ForwardTo env c baseURL).events
            = [.json 500 ⟨⟨err.Error, "request_error", "FORWARD_ERR"⟩⟩]
          ∧ (ForwardTo env c baseURL).header = c.Writer.header
          ∧ (ForwardTo env c baseURL).returned = true)
      ∧ (∀ bodyBytes err, ioCopy c.Request.Body = (bodyBytes, none) →
        env.newRequestErr c.Request.Method
            (buildTargetURL baseURL c.Request.Path c.Request.RawQuery) = none →
        env.Do ⟨c.Request.Method, buildTargetURL baseURL c.Request.Path c.Request.RawQuery,
              copyHeaders env.canon c.Request.Header Header.empty, bodyBytes⟩ = .error err →
        (ForwardTo env c baseURL).events
            = [.dispatch ⟨c.Request.Method, buildTargetURL baseURL c.Request.Path c.Request.RawQuery,
              copyHeaders env.canon c.Request.Header Header.empty, bodyBytes⟩,
               .json 500 ⟨⟨err.Error, "request_error", "FORWARD_ERR"⟩⟩]
          ∧ (ForwardTo env c baseURL).header = c.Writer.header
          ∧ (ForwardTo env c baseURL).returned = true) := by
  refine ⟨?_, ?_, ?_⟩
  · intro got err hcopy
    simp [ForwardTo, hcopy, respondWithError, StatusInternalServerError]
  · intro bodyBytes err hcopy hnew
    simp [ForwardTo, hcopy, hnew, respondWithError, StatusInternalServerError]
  · intro bodyBytes err hcopy hnew hdo
    simp [ForwardTo, hcopy, hnew, hdo, respondWithError, StatusInternalServerError]

/-- C4, witness: the request `GET /a/b?x=1` whose body read fails with `unexpected EOF`,
whose construction fails, and whose dispatch fails with `connection refused`. -/
theorem ForwardTo_error_before_commit_witness :
    ((ForwardTo (envWith none (.ok respSmall))
          (ctxGet (.stream [7] (some "unexpected EOF")) sinkOK) "http://h").events
        = [.json 500 ⟨⟨"unexpected EOF", "request_error", "FORWARD_ERR"⟩⟩]
      ∧ (ForwardTo (envWith none (.ok respSmall))
          (ctxGet (.stream [7] (some "unexpected EOF")) sinkOK) "http://h").header
        = Header.empty
      ∧ (ForwardTo (envWith none (.ok respSmall))
          (ctxGet (.stream [7] (some "unexpected EOF")) sinkOK) "http://h").returned = true)
    ∧ ((ForwardTo (envWith (some (.other "invalid method")) (.ok respSmall))
          (ctxGet (.stream [7] none) sinkOK) "http://h").events
        = [.json 500 ⟨⟨"invalid method", "request_error", "FORWARD_ERR"⟩⟩]
      ∧ (ForwardTo (envWith (some (.other "invalid method")) (.ok respSmall))
          (ctxGet (.stream [7] none) sinkOK) "http://h").header = Header.empty
      ∧ (ForwardTo (envWith (some (.other "invalid method")) (.ok respSmall))
          (ctxGet (.stream [7] none) sinkOK) "http://h").returned = true)
    ∧ ((ForwardTo (envWith none (.error (.other "connection refused")))
          (ctxGet (.stream [7] none) sinkOK) "http://h").events
        = [.dispatch ⟨"GET", "http://h/a/b?x=1", ⟨[("X", ["1", "2"])]⟩, [7]⟩,
           .json 500 ⟨⟨"connection refused", "request_error", "FORWARD_ERR"⟩⟩]
      ∧ (ForwardTo (envWith none (.error (.other "connection refused")))
          (ctxGet (.stream [7] none) sinkOK) "http://h").header = Header.empty
      ∧ (ForwardTo (envWith none (.error (.other "connection refused")))
          (ctxGet (.stream [7] none) sinkOK) "http://h").returned = true) :=
  ⟨(ForwardTo_error_before_commit (envWith none (.ok respSmall))
      (ctxGet (.stream [7] (some "unexpected EOF")) sinkOK) "http://h").1
      [7] (.other "unexpected EOF") rfl,
   (ForwardTo_error_before_commit (envWith (some (.other "invalid method")) (.ok respSmall))
      (ctxGet (.stream [7] none) sinkOK) "http://h").2.1
      [7] (.other "invalid method") rfl rfl,
   (ForwardTo_error_before_commit (envWith none (.error (.other "connection refused")))
      (ctxGet (.stream [7] none) sinkOK) "http://h").2.2
      [7] (.other "connection refused") rfl rfl rfl⟩

/-- C3, as stated, fails: when the second read of the response body fails, after the
status was committed and three bytes were written and flushed, `ForwardTo` calls `c.JSON`
with a structured error on the sink after them. -/
theorem ForwardTo_error_after_commit_counterexample :
    sinkOK.flusher = true
      ∧ (transferResponse sinkOK respBroken).outcome
        = .returned (some (.other "connection reset"))
      ∧ (ForwardTo (envWith none (.ok respBroken)) (ctxGet (.stream [7] none) sinkOK)
          "http://h").events
        = [.dispatch ⟨"GET", "http://h/a/b?x=1", ⟨[("X", ["1", "2"])]⟩, [7]⟩,
           .writeHeader 200, .read, .write [1, 2] none, .flush,
           .read, .write [3] none, .flush,
           .json 500 ⟨⟨"connection reset", "request_error", "FORWARD_ERR"⟩⟩, .close]
      ∧ errorAfterCommit (ForwardTo (envWith none (.ok respBroken))
          (ctxGet (.stream [7] none) sinkOK) "http://h").events = true := by
  refine ⟨rfl, by decide, by decide, by decide⟩

/-- C3, amended: with a flush-capable sink, when `transferResponse` returns an error (a
read of the body or a `Write` failed, after the status was committed), `ForwardTo` calls
`respondWithError` once with status 500 and the text of that error: the events are the
dispatch, then everything `transferResponse` did, which starts with `WriteHeader` and
holds no structured error, then the structured error, then the closing of the response
body. When `transferResponse` returns `nil` no structured error follows. -/
theorem ForwardTo_error_after_commit (env : Env) (c : Context) (baseURL : String)
    (bodyBytes : List Byte) (resp : Response)
    (hflush : c.Writer.flusher = true)
    (hcopy : ioCopy c.Request.Body = (bodyBytes, none))
    (hnew : env.newRequestErr c.Request.Method
        (buildTargetURL baseURL c.Request.Path c.Request.RawQuery) = none)
    (hdo : env.Do ⟨c.Request.Method, buildTargetURL baseURL c.Request.Path c.Request.RawQuery,
      copyHeaders env.canon c.Request.Header Header.empty, bodyBytes⟩ = .ok resp) :
    (∀ err, (transferResponse c.Writer resp).outcome = .returned (some err) →
        (ForwardTo env c baseURL).events
            = .dispatch ⟨c.Request.Method, buildTargetURL baseURL c.Request.Path c.Request.RawQuery,
      copyHeaders env.canon c.Request.Header Header.empty, bodyBytes⟩ :: ((transferResponse c.Writer resp).events
                ++ [.json 500 ⟨⟨err.Error, "request_error", "FORWARD_ERR"⟩⟩, .close])
          ∧ (transferResponse c.Writer resp).events.head?
              = some (.writeHeader resp.StatusCode)
          ∧ (∀ code obj, Event.json code obj ∉ (transferResponse c.Writer resp).events)
          ∧ (ForwardTo env c baseURL).returned = true)
      ∧ ((transferResponse c.Writer resp).outcome = .returned none →
        (ForwardTo env c baseURL).events
            = .dispatch ⟨c.Request.Method, buildTargetURL baseURL c.Request.Path c.Request.RawQuery,
      copyHeaders env.canon c.Request.Header Header.empty, bodyBytes⟩ :: ((transferResponse c.Writer resp).events ++ [.close])
          ∧ (ForwardTo env c baseURL).returned = true) := by
  have hhead : (transferResponse c.Writer resp).events.head?
      = some (.writeHeader resp.StatusCode) := by
    rw [(transferResponse_flusher c.Writer resp hflush).1]
    rfl
  constructor
  · intro err hout
    refine ⟨?_, hhead, fun code obj => transferResponse_no_json c.Writer resp code obj, ?_⟩
    · simp [ForwardTo, hcopy, hnew, hdo, hout, respondWithError, StatusInternalServerError]
    · simp [ForwardTo, hcopy, hnew, hdo, hout]
  · intro hout
    simp [ForwardTo, hcopy, hnew, hdo, hout]

/-- C3, amended, witness: the response whose second read fails with `connection reset`
(the structured error follows the three bytes already written), and the sink whose second
`Write` fails with `broken pipe` (the structured error follows the failed `Write`). -/
theorem ForwardTo_error_after_commit_witness :
    ((ForwardTo (envWith none (.ok respBroken)) (ctxGet (.stream [7] none) sinkOK)
          "http://h").events
        = .dispatch ⟨"GET", "http://h/a/b?x=1", ⟨[("X", ["1", "2"])]⟩, [7]⟩
            :: ((transferResponse sinkOK respBroken).events
              ++ [.json 500 ⟨⟨"connection reset", "request_error", "FORWARD_ERR"⟩⟩, .close])
      ∧ (transferResponse sinkOK respBroken).events.head? = some (.writeHeader 200)
      ∧ (∀ code obj, Event.json code obj ∉ (transferResponse sinkOK respBroken).events)
      ∧ (ForwardTo (envWith none (.ok respBroken)) (ctxGet (.stream [7] none) sinkOK)
          "http://h").returned = true)
    ∧ ((ForwardTo (envWith none (.ok respSmall))
          (ctxGet (.stream [7] none) (sinkFailingAt 1 "broken pipe")) "http://h").events
        = .dispatch ⟨"GET", "http://h/a/b?x=1", ⟨[("X", ["1", "2"])]⟩, [7]⟩
            :: ((transferResponse (sinkFailingAt 1 "broken pipe") respSmall).events
              ++ [.json 500 ⟨⟨"broken pipe", "request_error", "FORWARD_ERR"⟩⟩, .close])
      ∧ (transferResponse (sinkFailingAt 1 "broken pipe") respSmall).events.head?
          = some (.writeHeader 200)
      ∧ (∀ code obj,
          Event.json code obj ∉ (transferResponse (sinkFailingAt 1 "broken pipe") respSmall).events)
      ∧ (ForwardTo (envWith none (.ok respSmall))
          (ctxGet (.stream [7] none) (sinkFailingAt 1 "broken pipe")) "http://h").returned
          = true)
    ∧ (ForwardTo (envWith none (.ok respSmall))
          (ctxGet (.stream [7] none) (sinkFailingAt 1 "broken pipe")) "http://h").events
        = [.dispatch ⟨"GET", "http://h/a/b?x=1", ⟨[("X", ["1", "2"])]⟩, [7]⟩,
           .writeHeader 200, .read, .write [1, 2] none, .flush, .read,
           .read, .write [3] (some (.other "broken pipe")),
           .json 500 ⟨⟨"broken pipe", "request_error", "FORWARD_ERR"⟩⟩, .close] :=
  ⟨(ForwardTo_error_after_commit (envWith none (.ok respBroken))
      (ctxGet (.stream [7] none) sinkOK) "http://h" [7] respBroken rfl rfl rfl rfl).1
      (.other "connection reset") (by decide),
   (ForwardTo_error_after_commit (envWith none (.ok respSmall))
      (ctxGet (.stream [7] none) (sinkFailingAt 1 "broken pipe")) "http://h" [7] respSmall
      rfl rfl rfl rfl).1
      (.other "broken pipe") (by decide),
   by decide⟩

/-- C7: when the inbound body is read without error, giving the bytes `bodyBytes`
(possibly none), `ForwardTo` leaves in `c.Request.Body` a reader over exactly these bytes,
from which they can be read again; and when the outbound request can be built, the first
thing `ForwardTo` does to the outside is to dispatch a request whose body is exactly
these bytes (with the method of the inbound request and the URL of `buildTargetURL`). -/
theorem ForwardTo_body (env : Env) (c : Context) (baseURL : String) (bodyBytes : List Byte)
    (hcopy : ioCopy c.Request.Body = (bodyBytes, none)) :
    (ForwardTo env c baseURL).requestBody = .reader bodyBytes
      ∧ ioCopy (ForwardTo env c baseURL).requestBody = (bodyBytes, none)
      ∧ (env.newRequestErr c.Request.Method
            (buildTargetURL baseURL c.Request.Path c.Request.RawQuery) = none →
          ∃ req, (ForwardTo env c baseURL).events.head? = some (.dispatch req)
            ∧ req.Body = bodyBytes
            ∧ req.Method = c.Request.Method
            ∧ req.URL = buildTargetURL baseURL c.Request.Path c.Request.RawQuery) := by
  have hbody : (ForwardTo env c baseURL).requestBody = .reader bodyBytes := by
    simp only [ForwardTo, hcopy]
    split
    · rfl
    · split
      · rfl
      · split <;> rfl
  refine ⟨hbody, ?_, ?_⟩
  · rw [hbody]
    rfl
  · intro hnew
    refine ⟨⟨c.Request.Method, buildTargetURL baseURL c.Request.Path c.Request.RawQuery,
      copyHeaders env.canon c.Request.Header Header.empty, bodyBytes⟩, ?_, rfl, rfl, rfl⟩
    simp only [ForwardTo, hcopy, hnew]
    split
    · rfl
    · split <;> rfl

/-- C7, witness: the body bytes 7, 8 and the empty body. -/
theorem ForwardTo_body_witness :
    ((ForwardTo (envWith none (.ok respSmall)) (ctxGet (.stream [7, 8] none) sinkOK)
          "http://h").requestBody = .reader [7, 8]
      ∧ ioCopy (ForwardTo (envWith none (.ok respSmall))
          (ctxGet (.stream [7, 8] none) sinkOK) "http://h").requestBody = ([7, 8], none)
      ∧ ((envWith none (.ok respSmall)).newRequestErr "GET"
            (buildTargetURL "http://h" "/a/b" "x=1") = none →
          ∃ req, (ForwardTo (envWith none (.ok respSmall))
              (ctxGet (.stream [7, 8] none) sinkOK) "http://h").events.head?
              = some (.dispatch req)
            ∧ req.Body = [7, 8]
            ∧ req.Method = "GET"
            ∧ req.URL = buildTargetURL "http://h" "/a/b" "x=1"))
      ∧ (ForwardTo (envWith none (.ok respSmall)) (ctxGet (.stream [] none) sinkOK)
          "http://h").events.head?
        = some (.dispatch ⟨"GET", "http://h/a/b?x=1", ⟨[("X", ["1", "2"])]⟩, []⟩) :=
  ⟨ForwardTo_body (envWith none (.ok respSmall)) (ctxGet (.stream [7, 8] none) sinkOK)
      "http://h" [7, 8] rfl,
   by decide⟩

end Forward
